import Mathlib

/-!
Verification of the arithmetic-expression evaluator in `src/ast.rs`
(segfo/calculator).

The embedding follows the Rust source closely:
  * `OperatorKind`, `Expr`, `BinaryOp::new`, `Number` and its operator
    impls, `ArithmeticError` with `to_enum` / `resolve_string`, and the
    stack-based evaluator `parser` with its two loops (`pass1` flattens
    to a reverse-Polish stack, `pass2` reduces it).
  * `u128` values are modelled as `Nat`; the arithmetic operators trap
    on overflow past `2 ^ 128` and on subtraction underflow, matching the
    checked (trapping) semantics of the source integer type.
  * A Rust panic (an `unwrap()` of `None`, an unreachable-variant arm, or
    an arithmetic trap) is modelled as `Except.error (k : PanicKind)`,
    where `k` records which abort site fired; the typed result
    `Result<Number, ArithmeticError>` is the `Except ArithmeticError Number`
    carried on the `Except.ok` side.
  * `Box<BinaryOp>` is heap indirection only; the `BinaryOp { l, r, op }`
    record is inlined into the `Expr.Operation` constructor, with
    `BinaryOp.new` kept as the source's constructor function.
-/

/-- The `OperatorKind` enum of the source: the four binary operators. -/
inductive OperatorKind where
  | Add
  | Sub
  | Mul
  | Div
deriving Repr, DecidableEq

/-- The `Number(u128)` newtype; the wrapped `u128` is modelled as `Nat`. -/
structure Number where
  val : Nat
deriving Repr, DecidableEq

/-- The `Expr` enum: an operation node (the inlined `BinaryOp` record),
a number node holding `Option<Number>`, or a bare operator tag. -/
inductive Expr where
  | Operation : Expr → Expr → OperatorKind → Expr
  | Number : Option Number → Expr
  | Operator : OperatorKind → Expr
deriving Repr, DecidableEq

/-- `BinaryOp::new`: wraps two operands and an operator into an
`Expr::Operation` node. -/
def BinaryOp.new (l : Expr) (r : Expr) (op : OperatorKind) : Expr :=
  Expr.Operation l r op

/-- `Number::new`: wraps a raw integer as `Expr::Number(Some(Number(n)))`. -/
def Number.new (n : Nat) : Expr :=
  Expr.Number (some ⟨n⟩)

/-- `Number::from_expr`: projects the `Number` variant, returning the inner
`Option<Number>` there and `None` on every other variant. -/
def Number.from_expr : Expr → Option Number
  | Expr.Number number => number
  | _ => none

/-- `derive(Clone)` on `Expr`: a deep structural copy of the tree. -/
def Expr.cloneE : Expr → Expr
  | Expr.Operation l r op => Expr.Operation l.cloneE r.cloneE op
  | Expr.Number (some n) => Expr.Number (some ⟨n.val⟩)
  | Expr.Number none => Expr.Number none
  | Expr.Operator k => Expr.Operator k

/-- One more than the largest `u128` value. -/
def U128_LIMIT : Nat := 2 ^ 128

/-- The abort sites of the evaluator: each constructor is one place where
the Rust code can panic (an `unwrap()` of `None`, an unreachable-variant
arm, or an arithmetic trap of the `u128` operations). -/
inductive PanicKind where
  | popEmpty1
  | badVariant1
  | popEmpty2
  | ansPopEmpty
  | numNone
  | overflow
  | badVariant2
  | finalPopEmpty
  | finalNumNone
deriving Repr, DecidableEq

/-- `impl Add for Number`: `Number::new(self.0 + other.0)`, trapping when
the `u128` addition overflows. -/
def Number.add (a b : Number) : Except PanicKind Expr :=
  if a.val + b.val < U128_LIMIT then Except.ok (Number.new (a.val + b.val))
  else Except.error PanicKind.overflow

/-- `impl Sub for Number`: `Number::new(self.0 - other.0)`, trapping when
the `u128` subtraction underflows. -/
def Number.sub (a b : Number) : Except PanicKind Expr :=
  if b.val ≤ a.val then Except.ok (Number.new (a.val - b.val))
  else Except.error PanicKind.overflow

/-- `impl Mul for Number`: `Number::new(self.0 * other.0)`, trapping when
the `u128` multiplication overflows. -/
def Number.mul (a b : Number) : Except PanicKind Expr :=
  if a.val * b.val < U128_LIMIT then Except.ok (Number.new (a.val * b.val))
  else Except.error PanicKind.overflow

/-- `impl Div for Number`: `Number::new(self.0 / other.0)`, trapping on a
zero divisor (the `u128` division panics there; the evaluator checks the
divisor before calling it). -/
def Number.div (a b : Number) : Except PanicKind Expr :=
  if b.val ≠ 0 then Except.ok (Number.new (a.val / b.val))
  else Except.error PanicKind.overflow

/-- `impl PartialEq<u128> for Number`: value equality with a raw integer. -/
def Number.eqU128 (a : Number) (n : Nat) : Bool :=
  a.val == n

/-- The `ArithmeticErrorKind` enum: `Success` and `DivByZero`. -/
inductive ArithmeticErrorKind where
  | Success
  | DivByZero
deriving Repr, DecidableEq

/-- The discriminant of an `ArithmeticErrorKind` (`as usize` in the
source): `Success = 0`, `DivByZero = 1`. -/
def ArithmeticErrorKind.code : ArithmeticErrorKind → Nat
  | ArithmeticErrorKind.Success => 0
  | ArithmeticErrorKind.DivByZero => 1

/-- `ArithmeticError { e_code: usize }`. -/
structure ArithmeticError where
  e_code : Nat
deriving Repr, DecidableEq

/-- `ArithmeticError::new`: stores the kind's discriminant as `e_code`. -/
def ArithmeticError.new (code : ArithmeticErrorKind) : ArithmeticError :=
  ⟨code.code⟩

/-- `ArithmeticError::to_enum`, with Rust `match` semantics. In the source
the arms are
`success => Some(Success), div_by_zero => Some(DivByZero), _ => None`,
but `success` and `div_by_zero` are plain lowercase identifiers, so each
is an irrefutable binding pattern, not a comparison with the local
variables of those names: the first arm matches every `e_code`, and the
later arms (including the `None` fallback) are unreachable. The function
therefore returns `Some(Success)` for every code. -/
def ArithmeticError.to_enum (e : ArithmeticError) : Option ArithmeticErrorKind :=
  match e.e_code with
  | _ => some ArithmeticErrorKind.Success

/-- `ArithmeticError::resolve_string`: the message table keyed on
`to_enum`. -/
def ArithmeticError.resolve_string (e : ArithmeticError) : String :=
  match e.to_enum with
  | some ArithmeticErrorKind.Success => "成功しました。"
  | some ArithmeticErrorKind.DivByZero => "解無し：ゼロ除算が発生しました。"
  | none => "存在しないエラーコードが指定されました。"

/-- `impl Display for ArithmeticError`: writes `resolve_string`. -/
def ArithmeticError.displayString (e : ArithmeticError) : String :=
  e.resolve_string

/-- Node count of an expression tree (termination measure for `pass1`). -/
def sizeE : Expr → Nat
  | Expr.Operation l r _ => 1 + sizeE l + sizeE r
  | Expr.Number _ => 1
  | Expr.Operator _ => 1

/-- The first loop of `parser`: pops `parser_stack` (head of the first
list), building the `rev_polish` stack (head of the second list is its
top). A `Number` is pushed through, and the loop ends when the parser
stack has emptied; an `Operation` pushes its operator tag onto
`rev_polish` and its left then right child onto `parser_stack` (right on
top); a bare `Operator` hits the unreachable arm; popping an empty stack
aborts the `unwrap()` of `None`. -/
def pass1 : List Expr → List Expr → Except PanicKind (List Expr)
  | [], _ => Except.error PanicKind.popEmpty1
  | Expr.Number num :: rest, rev =>
    if rest.length == 0 then Except.ok (Expr.Number num :: rev)
    else pass1 rest (Expr.Number num :: rev)
  | Expr.Operation l r op :: rest, rev =>
    pass1 (r :: l :: rest) (Expr.Operator op :: rev)
  | Expr.Operator _ :: _, _ => Except.error PanicKind.badVariant1
termination_by stack _ => (stack.map sizeE).sum
decreasing_by
  all_goals simp [sizeE]
  omega

/-- The second loop of `parser`: pops `rev_polish` (head of the first
list), maintaining the `ans` stack of `Option<Number>` values (head of
the second list is its top). A popped `Number` is pushed onto `ans`, and
the loop ends when `rev_polish` is empty and `ans` holds exactly one
value; an `Operator` pops the right then the left operand from `ans`
(each pop `unwrap()`ped twice), applies the operator — returning the
`DivByZero` error at once for a zero divisor — and pushes the resulting
expression back onto `rev_polish`; an `Operation` hits the unreachable
arm; popping an empty `rev_polish` aborts the `unwrap()` of `None`. -/
def pass2 : List Expr → List (Option Number) →
    Except PanicKind (Except ArithmeticError (List (Option Number)))
  | [], _ => Except.error PanicKind.popEmpty2
  | Expr.Number num :: rest, ans =>
    if rest.length == 0 && (num :: ans).length == 1 then
      Except.ok (Except.ok (num :: ans))
    else pass2 rest (num :: ans)
  | Expr.Operator op :: rest, ans =>
    match ans with
    | [] => Except.error PanicKind.ansPopEmpty
    | none :: _ => Except.error PanicKind.numNone
    | some _ :: [] => Except.error PanicKind.ansPopEmpty
    | some _ :: none :: _ => Except.error PanicKind.numNone
    | some r :: some l :: ans2 =>
      match op with
      | OperatorKind.Add =>
        match Number.add l r with
        | Except.ok e => pass2 (e :: rest) ans2
        | Except.error p => Except.error p
      | OperatorKind.Sub =>
        match Number.sub l r with
        | Except.ok e => pass2 (e :: rest) ans2
        | Except.error p => Except.error p
      | OperatorKind.Mul =>
        match Number.mul l r with
        | Except.ok e => pass2 (e :: rest) ans2
        | Except.error p => Except.error p
      | OperatorKind.Div =>
        if r.val ≠ 0 then
          match Number.div l r with
          | Except.ok e => pass2 (e :: rest) ans2
          | Except.error p => Except.error p
        else Except.ok (Except.error (ArithmeticError.new ArithmeticErrorKind.DivByZero))
  | Expr.Operation _ _ _ :: _, _ => Except.error PanicKind.badVariant2
termination_by rev ans => 3 * rev.length + ans.length
decreasing_by
  all_goals simp
  all_goals omega

/-- `parser`: runs the two loops starting from a single-element parser
stack, then extracts the final answer with `ans.pop().unwrap().unwrap()`. -/
def parser (op : Expr) : Except PanicKind (Except ArithmeticError Number) :=
  match pass1 [op] [] with
  | Except.error p => Except.error p
  | Except.ok rev_polish =>
    match pass2 rev_polish [] with
    | Except.error p => Except.error p
    | Except.ok (Except.error e) => Except.ok (Except.error e)
    | Except.ok (Except.ok ans) =>
      match ans with
      | [] => Except.error PanicKind.finalPopEmpty
      | num :: _ =>
        match num with
        | some num => Except.ok (Except.ok num)
        | none => Except.error PanicKind.finalNumNone

/-- An expression is an acceptable child of an `Operation` node when it is
`Number(Some(_))` or an `Operation` (the spec's well-formedness shapes). -/
def childOk : Expr → Bool
  | Expr.Number (some _) => true
  | Expr.Operation _ _ _ => true
  | _ => false

/-- A tree is well-formed when every `Operation` node's children are
`Number(Some(_))` or `Operation`, recursively. -/
def wellFormed : Expr → Bool
  | Expr.Operation l r _ => childOk l && wellFormed l && childOk r && wellFormed r
  | _ => true

/-- No node of the tree is a bare `Operator` tag (what `pass1` needs to
avoid its unreachable arm). -/
def noOp : Expr → Bool
  | Expr.Operator _ => false
  | Expr.Number _ => true
  | Expr.Operation l r _ => noOp l && noOp r

/-- Modelled from the spec: the recursive evaluation of a tree —
`Number(Some(n))` evaluates to `n`, `Operation(l, r, op)` to
`eval(l) op eval(r)` over `u128` — returning `none` when a division by
zero, a `u128` underflow/overflow, or a malformed node is encountered.
This is the specification side of the refinement claim; `parser` above is
the code side. -/
def evalR : Expr → Option Nat
  | Expr.Number (some n) => some n.val
  | Expr.Operation l r op =>
    match evalR l, evalR r with
    | some lv, some rv =>
      match op with
      | OperatorKind.Add => if lv + rv < U128_LIMIT then some (lv + rv) else none
      | OperatorKind.Sub => if rv ≤ lv then some (lv - rv) else none
      | OperatorKind.Mul => if lv * rv < U128_LIMIT then some (lv * rv) else none
      | OperatorKind.Div => if rv ≠ 0 then some (lv / rv) else none
    | _, _ => none
  | _ => none

/-- The reverse-Polish stack `pass1` builds from one tree, head = top:
the left flattening, then the right flattening, then the operator tag. -/
def revFlat : Expr → List Expr
  | Expr.Number num => [Expr.Number num]
  | Expr.Operation l r op => revFlat l ++ (revFlat r ++ [Expr.Operator op])
  | Expr.Operator _ => []

/-! ### Step lemmas for the two loops -/

theorem pass2_number_cont (num : Option Number) (rest : List Expr)
    (ans : List (Option Number)) (h : rest.length ≠ 0) :
    pass2 (Expr.Number num :: rest) ans = pass2 rest (num :: ans) := by
  rw [pass2]
  simp [h]

theorem pass2_number_halt (num : Option Number) :
    pass2 [Expr.Number num] [] = Except.ok (Except.ok [num]) := by
  rw [pass2]
  simp

theorem pass2_add_step (l r : Number) (rest : List Expr)
    (ans : List (Option Number)) (h : l.val + r.val < U128_LIMIT) :
    pass2 (Expr.Operator OperatorKind.Add :: rest) (some r :: some l :: ans)
      = pass2 (Expr.Number (some ⟨l.val + r.val⟩) :: rest) ans := by
  conv_lhs => rw [pass2]
  simp [Number.add, Number.new, h]

theorem pass2_add_overflow (l r : Number) (rest : List Expr)
    (ans : List (Option Number)) (h : ¬ l.val + r.val < U128_LIMIT) :
    pass2 (Expr.Operator OperatorKind.Add :: rest) (some r :: some l :: ans)
      = Except.error PanicKind.overflow := by
  rw [pass2]
  simp [Number.add, Number.new, h]

theorem pass2_sub_step (l r : Number) (rest : List Expr)
    (ans : List (Option Number)) (h : r.val ≤ l.val) :
    pass2 (Expr.Operator OperatorKind.Sub :: rest) (some r :: some l :: ans)
      = pass2 (Expr.Number (some ⟨l.val - r.val⟩) :: rest) ans := by
  conv_lhs => rw [pass2]
  simp [Number.sub, Number.new, h]

theorem pass2_sub_overflow (l r : Number) (rest : List Expr)
    (ans : List (Option Number)) (h : ¬ r.val ≤ l.val) :
    pass2 (Expr.Operator OperatorKind.Sub :: rest) (some r :: some l :: ans)
      = Except.error PanicKind.overflow := by
  rw [pass2]
  simp [Number.sub, Number.new, h]

theorem pass2_mul_step (l r : Number) (rest : List Expr)
    (ans : List (Option Number)) (h : l.val * r.val < U128_LIMIT) :
    pass2 (Expr.Operator OperatorKind.Mul :: rest) (some r :: some l :: ans)
      = pass2 (Expr.Number (some ⟨l.val * r.val⟩) :: rest) ans := by
  conv_lhs => rw [pass2]
  simp [Number.mul, Number.new, h]

theorem pass2_mul_overflow (l r : Number) (rest : List Expr)
    (ans : List (Option Number)) (h : ¬ l.val * r.val < U128_LIMIT) :
    pass2 (Expr.Operator OperatorKind.Mul :: rest) (some r :: some l :: ans)
      = Except.error PanicKind.overflow := by
  rw [pass2]
  simp [Number.mul, Number.new, h]

theorem pass2_div_step (l r : Number) (rest : List Expr)
    (ans : List (Option Number)) (h : r.val ≠ 0) :
    pass2 (Expr.Operator OperatorKind.Div :: rest) (some r :: some l :: ans)
      = pass2 (Expr.Number (some ⟨l.val / r.val⟩) :: rest) ans := by
  conv_lhs => rw [pass2]
  simp [Number.div, Number.new, h]

theorem pass2_div_zero_step (l r : Number) (rest : List Expr)
    (ans : List (Option Number)) (h : r.val = 0) :
    pass2 (Expr.Operator OperatorKind.Div :: rest) (some r :: some l :: ans)
      = Except.ok (Except.error (ArithmeticError.new ArithmeticErrorKind.DivByZero)) := by
  rw [pass2]
  simp [h]

/-! ### Pass 1 computes the reverse-Polish flattening -/

theorem pass1_noOp (e : Expr) (h : noOp e = true) :
    ∀ rest rev : List Expr,
      pass1 (e :: rest) rev =
        if rest.length == 0 then Except.ok (revFlat e ++ rev)
        else pass1 rest (revFlat e ++ rev) := by
  induction e with
  | Operation l r op ihl ihr =>
    intro rest rev
    simp only [noOp, Bool.and_eq_true] at h
    rw [pass1]
    rw [ihr h.2 (l :: rest) (Expr.Operator op :: rev), if_neg (by simp)]
    rw [ihl h.1 rest (revFlat r ++ Expr.Operator op :: rev)]
    simp [revFlat, List.append_assoc]
  | Number num =>
    intro rest rev
    rw [pass1]
    simp [revFlat]
  | Operator k =>
    simp [noOp] at h

/-! ### The recursive evaluation refines the stack evaluator -/

theorem evalR_noOp (e : Expr) (v : Nat) (h : evalR e = some v) : noOp e = true := by
  induction e generalizing v with
  | Operation l r op ihl ihr =>
    rw [evalR] at h
    cases hl : evalR l with
    | none => rw [hl] at h; simp at h
    | some lv =>
      cases hr : evalR r with
      | none => rw [hl, hr] at h; simp at h
      | some rv => simp [noOp, ihl lv hl, ihr rv hr]
  | Number num => simp [noOp]
  | Operator k => simp [evalR] at h

theorem pass2_eval (e : Expr) (v : Nat) (h : evalR e = some v) :
    ∀ (rest : List Expr) (ans : List (Option Number)),
      pass2 (revFlat e ++ rest) ans = pass2 (Expr.Number (some ⟨v⟩) :: rest) ans := by
  induction e generalizing v with
  | Number num =>
    intro rest ans
    cases num with
    | none => simp [evalR] at h
    | some n =>
      simp [evalR] at h
      subst h
      simp [revFlat]
  | Operator k => simp [evalR] at h
  | Operation l r op ihl ihr =>
    intro rest ans
    rw [evalR] at h
    cases hl : evalR l with
    | none => rw [hl] at h; simp at h
    | some lv =>
      cases hr : evalR r with
      | none => rw [hl, hr] at h; simp at h
      | some rv =>
        rw [hl, hr] at h
        have hassoc : revFlat (Expr.Operation l r op) ++ rest
            = revFlat l ++ (revFlat r ++ (Expr.Operator op :: rest)) := by
          simp [revFlat]
        rw [hassoc, ihl lv hl, pass2_number_cont _ _ _ (by simp),
          ihr rv hr, pass2_number_cont _ _ _ (by simp)]
        cases op with
        | Add =>
          change (if lv + rv < U128_LIMIT then some (lv + rv) else none) = some v at h
          by_cases hc : lv + rv < U128_LIMIT
          · rw [if_pos hc] at h
            rw [pass2_add_step _ _ _ _ hc]
            simp only [Option.some.injEq] at h
            rw [h]
          · rw [if_neg hc] at h
            exact absurd h (by simp)
        | Sub =>
          change (if rv ≤ lv then some (lv - rv) else none) = some v at h
          by_cases hc : rv ≤ lv
          · rw [if_pos hc] at h
            rw [pass2_sub_step _ _ _ _ hc]
            simp only [Option.some.injEq] at h
            rw [h]
          · rw [if_neg hc] at h
            exact absurd h (by simp)
        | Mul =>
          change (if lv * rv < U128_LIMIT then some (lv * rv) else none) = some v at h
          by_cases hc : lv * rv < U128_LIMIT
          · rw [if_pos hc] at h
            rw [pass2_mul_step _ _ _ _ hc]
            simp only [Option.some.injEq] at h
            rw [h]
          · rw [if_neg hc] at h
            exact absurd h (by simp)
        | Div =>
          change (if rv ≠ 0 then some (lv / rv) else none) = some v at h
          by_cases hc : rv ≠ 0
          · rw [if_pos hc] at h
            rw [pass2_div_step _ _ _ _ hc]
            simp only [Option.some.injEq] at h
            rw [h]
          · rw [if_neg hc] at h
            exact absurd h (by simp)

theorem parser_eval (e : Expr) (v : Nat) (h : evalR e = some v) :
    parser e = Except.ok (Except.ok ⟨v⟩) := by
  have hno := evalR_noOp e v h
  have h1 := pass1_noOp e hno [] []
  simp at h1
  have h2 := pass2_eval e v h [] []
  rw [List.append_nil] at h2
  simp only [parser, h1, h2, pass2_number_halt]

/-! ### Well-formed trees avoid the invariant-violation abort sites -/

theorem wf_noOp (e : Expr) (h1 : wellFormed e = true) (h2 : childOk e = true) :
    noOp e = true := by
  induction e with
  | Operation l r op ihl ihr =>
    simp only [wellFormed, Bool.and_eq_true] at h1
    obtain ⟨⟨⟨hcl, hwl⟩, hcr⟩, hwr⟩ := h1
    simp [noOp, ihl hwl hcl, ihr hwr hcr]
  | Number num => simp [noOp]
  | Operator k => simp [childOk] at h2

theorem pass2_wfAux : ∀ e : Expr, wellFormed e = true → childOk e = true →
    ∀ (rest : List Expr) (ans : List (Option Number)),
      (∃ n : Number, pass2 (revFlat e ++ rest) ans = pass2 (Expr.Number (some n) :: rest) ans)
      ∨ pass2 (revFlat e ++ rest) ans = Except.error PanicKind.overflow
      ∨ pass2 (revFlat e ++ rest) ans
          = Except.ok (Except.error (ArithmeticError.new ArithmeticErrorKind.DivByZero)) := by
  intro e
  induction e with
  | Number num =>
    intro h1 h2 rest ans
    cases num with
    | none => simp [childOk] at h2
    | some n => exact Or.inl ⟨n, by simp [revFlat]⟩
  | Operator k =>
    intro h1 h2 rest ans
    simp [childOk] at h2
  | Operation l r op ihl ihr =>
    intro h1 h2 rest ans
    simp only [wellFormed, Bool.and_eq_true] at h1
    obtain ⟨⟨⟨hcl, hwl⟩, hcr⟩, hwr⟩ := h1
    have hassoc : revFlat (Expr.Operation l r op) ++ rest
        = revFlat l ++ (revFlat r ++ (Expr.Operator op :: rest)) := by
      simp [revFlat]
    rw [hassoc]
    rcases ihl hwl hcl (revFlat r ++ (Expr.Operator op :: rest)) ans with ⟨nl, hnl⟩ | hov | hdz
    · rw [hnl, pass2_number_cont _ _ _ (by simp)]
      rcases ihr hwr hcr (Expr.Operator op :: rest) (some nl :: ans) with ⟨nr, hnr⟩ | hov | hdz
      · rw [hnr, pass2_number_cont _ _ _ (by simp)]
        cases op with
        | Add =>
          by_cases hc : nl.val + nr.val < U128_LIMIT
          · exact Or.inl ⟨⟨nl.val + nr.val⟩, by rw [pass2_add_step _ _ _ _ hc]⟩
          · exact Or.inr (Or.inl (by rw [pass2_add_overflow _ _ _ _ hc]))
        | Sub =>
          by_cases hc : nr.val ≤ nl.val
          · exact Or.inl ⟨⟨nl.val - nr.val⟩, by rw [pass2_sub_step _ _ _ _ hc]⟩
          · exact Or.inr (Or.inl (by rw [pass2_sub_overflow _ _ _ _ hc]))
        | Mul =>
          by_cases hc : nl.val * nr.val < U128_LIMIT
          · exact Or.inl ⟨⟨nl.val * nr.val⟩, by rw [pass2_mul_step _ _ _ _ hc]⟩
          · exact Or.inr (Or.inl (by rw [pass2_mul_overflow _ _ _ _ hc]))
        | Div =>
          by_cases hc : nr.val = 0
          · exact Or.inr (Or.inr (by rw [pass2_div_zero_step _ _ _ _ hc]))
          · exact Or.inl ⟨⟨nl.val / nr.val⟩, by rw [pass2_div_step _ _ _ _ hc]⟩
      · exact Or.inr (Or.inl hov)
      · exact Or.inr (Or.inr hdz)
    · exact Or.inr (Or.inl hov)
    · exact Or.inr (Or.inr hdz)

/-- `derive(Clone)` produces a value equal to the original tree. -/
theorem cloneE_id (e : Expr) : Expr.cloneE e = e := by
  induction e with
  | Operation l r op ihl ihr => simp [Expr.cloneE, ihl, ihr]
  | Number num => cases num <;> simp [Expr.cloneE]
  | Operator k => simp [Expr.cloneE]

/-- The only typed error `pass2` ever produces is the one built in its
zero-divisor branch. -/
theorem pass2_ok_error (rev : List Expr) (ans : List (Option Number))
    (er : ArithmeticError)
    (h : pass2 rev ans = Except.ok (Except.error er)) :
    er = ArithmeticError.new ArithmeticErrorKind.DivByZero := by
  induction rev, ans using pass2.induct with
  | case1 ans => simp [pass2] at h
  | case2 num rest ans hc =>
    rw [pass2, if_pos hc] at h
    simp at h
  | case3 num rest ans hc ih =>
    rw [pass2, if_neg hc] at h
    exact ih h
  | case4 op rest =>
    rw [pass2] at h
    simp at h
  | case5 op rest tail =>
    rw [pass2] at h
    simp at h
  | case6 op rest v =>
    rw [pass2] at h
    simp at h
  | case7 op rest v tail =>
    rw [pass2] at h
    simp at h
  | case8 rest r l ans2 e hadd ih =>
    rw [pass2] at h
    simp only [hadd] at h
    exact ih h
  | case9 rest r l ans2 p hadd =>
    rw [pass2] at h
    simp [hadd] at h
  | case10 rest r l ans2 e hsub ih =>
    rw [pass2] at h
    simp only [hsub] at h
    exact ih h
  | case11 rest r l ans2 p hsub =>
    rw [pass2] at h
    simp [hsub] at h
  | case12 rest r l ans2 e hmul ih =>
    rw [pass2] at h
    simp only [hmul] at h
    exact ih h
  | case13 rest r l ans2 p hmul =>
    rw [pass2] at h
    simp [hmul] at h
  | case14 rest r l ans2 hnz e hdiv ih =>
    rw [pass2] at h
    simp only [if_pos hnz, hdiv] at h
    exact ih h
  | case15 rest r l ans2 hnz p hdiv =>
    rw [pass2] at h
    simp [if_pos hnz, hdiv] at h
  | case16 rest r l ans2 hz =>
    rw [pass2, if_neg hz] at h
    simp at h
    exact h.symm
  | case17 a b op tail ans =>
    rw [pass2] at h
    simp at h

/-- Any typed error returned by `parser` came out of the zero-divisor
branch of `pass2`. -/
theorem parser_error_code (e : Expr) (er : ArithmeticError)
    (h : parser e = Except.ok (Except.error er)) :
    er = ArithmeticError.new ArithmeticErrorKind.DivByZero := by
  rw [parser] at h
  split at h
  · exact absurd h (by simp)
  · split at h
    · exact absurd h (by simp)
    · rename_i er2 heq
      simp only [Except.ok.injEq, Except.error.injEq] at h
      exact h ▸ pass2_ok_error _ [] er2 heq
    · split at h
      · exact absurd h (by simp)
      · split at h
        · exact absurd h (by simp)
        · exact absurd h (by simp)

/-- Dividing any literal by the literal zero produces the typed
`DivByZero` error. -/
theorem parser_div_zero (n : Nat) :
    parser (BinaryOp.new (Number.new n) (Number.new 0) OperatorKind.Div)
      = Except.ok (Except.error (ArithmeticError.new ArithmeticErrorKind.DivByZero)) := by
  have hno : noOp (BinaryOp.new (Number.new n) (Number.new 0) OperatorKind.Div) = true := by
    simp [noOp, BinaryOp.new, Number.new]
  have h1 := pass1_noOp _ hno [] []
  simp at h1
  have hflat : revFlat (BinaryOp.new (Number.new n) (Number.new 0) OperatorKind.Div)
      = [Expr.Number (some ⟨n⟩), Expr.Number (some ⟨0⟩), Expr.Operator OperatorKind.Div] := rfl
  have h2 : pass2 [Expr.Number (some ⟨n⟩), Expr.Number (some ⟨0⟩), Expr.Operator OperatorKind.Div] []
      = Except.ok (Except.error (ArithmeticError.new ArithmeticErrorKind.DivByZero)) := by
    rw [pass2_number_cont _ _ _ (by simp), pass2_number_cont _ _ _ (by simp),
      pass2_div_zero_step _ _ _ _ rfl]
  rw [hflat] at h1
  simp only [parser, h1, h2]

/-! ### Claims -/

/-- C1: for every well-formed `Expr` tree whose recursive evaluation
(`Operation(l, r, op)` evaluates to `eval(l) op eval(r)`,
`Number(Some(n))` to `n`) meets no division by zero and no `u128`
underflow/overflow, `parser` returns `Ok` of exactly that recursively
defined value. -/
theorem parser_refines_recursive_eval (e : Expr) (v : Nat)
    (hwf : wellFormed e = true) (h : evalR e = some v) :
    parser e = Except.ok (Except.ok ⟨v⟩) :=
  parser_eval e v h

theorem parser_refines_recursive_eval_witness :
    wellFormed (BinaryOp.new (BinaryOp.new (Number.new 14) (Number.new 2) OperatorKind.Sub)
        (Number.new 2) OperatorKind.Mul) = true
    ∧ evalR (BinaryOp.new (BinaryOp.new (Number.new 14) (Number.new 2) OperatorKind.Sub)
        (Number.new 2) OperatorKind.Mul) = some 24
    ∧ parser (BinaryOp.new (BinaryOp.new (Number.new 14) (Number.new 2) OperatorKind.Sub)
        (Number.new 2) OperatorKind.Mul) = Except.ok (Except.ok ⟨24⟩) :=
  ⟨by decide, by decide, parser_refines_recursive_eval _ 24 (by decide) (by decide)⟩

/-- C2: the only typed error `parser` ever returns is the `DivByZero`
error, whose numeric code is 1, and dividing any literal `n` by the
literal `0` returns exactly that error, not a value. -/
theorem parser_error_only_div_by_zero :
    (∀ (e : Expr) (er : ArithmeticError),
        parser e = Except.ok (Except.error er)
          → er = ArithmeticError.new ArithmeticErrorKind.DivByZero)
    ∧ (ArithmeticError.new ArithmeticErrorKind.DivByZero).e_code = 1
    ∧ (∀ n : Nat,
        parser (BinaryOp.new (Number.new n) (Number.new 0) OperatorKind.Div)
          = Except.ok (Except.error (ArithmeticError.new ArithmeticErrorKind.DivByZero))) :=
  ⟨parser_error_code, rfl, parser_div_zero⟩

theorem parser_error_only_div_by_zero_witness :
    ArithmeticError.new ArithmeticErrorKind.DivByZero
      = ArithmeticError.new ArithmeticErrorKind.DivByZero :=
  parser_error_only_div_by_zero.1
    (BinaryOp.new (Number.new 5) (Number.new 0) OperatorKind.Div)
    (ArithmeticError.new ArithmeticErrorKind.DivByZero)
    (parser_error_only_div_by_zero.2.2 5)

/-- C3: contrary to the claim, an `ArithmeticError` whose code is outside
the documented set resolves to the `Success` message, not the generic
unknown-code fallback: the identifier patterns in `to_enum` make its
first arm match every code. Evaluated here at the undocumented code 2. -/
theorem unknown_code_resolves_to_success_message :
    (ArithmeticError.mk 2).to_enum = some ArithmeticErrorKind.Success
    ∧ (ArithmeticError.mk 2).resolve_string = "成功しました。"
    ∧ (ArithmeticError.mk 2).resolve_string ≠ "存在しないエラーコードが指定されました。" := by
  refine ⟨rfl, rfl, ?_⟩
  decide

/-- C4: contrary to the claim, the error constructed with the `DivByZero`
kind (code 1) resolves — through `resolve_string` and `Display` — to the
`Success` message, not the zero-division message, because `to_enum`
returns `Some(Success)` for every code. -/
theorem div_by_zero_error_displays_success_message :
    (ArithmeticError.new ArithmeticErrorKind.DivByZero).e_code = 1
    ∧ (ArithmeticError.new ArithmeticErrorKind.DivByZero).resolve_string = "成功しました。"
    ∧ (ArithmeticError.new ArithmeticErrorKind.DivByZero).displayString
        ≠ "解無し：ゼロ除算が発生しました。" := by
  refine ⟨rfl, rfl, ?_⟩
  decide

/-- C5: for all values `a ≥ b`, evaluating `BinaryOp(Number(a),
Number(b), Sub)` yields `a - b`, and (for `a ≠ b`) never `b - a`: operand
order is respected for the non-commutative operator. -/
theorem parser_sub_operand_order :
    (∀ a b : Nat, b ≤ a →
      parser (BinaryOp.new (Number.new a) (Number.new b) OperatorKind.Sub)
        = Except.ok (Except.ok ⟨a - b⟩))
    ∧ (∀ a b : Nat, b ≤ a → a ≠ b →
      parser (BinaryOp.new (Number.new a) (Number.new b) OperatorKind.Sub)
        ≠ Except.ok (Except.ok ⟨b - a⟩)) := by
  have hmain : ∀ a b : Nat, b ≤ a →
      parser (BinaryOp.new (Number.new a) (Number.new b) OperatorKind.Sub)
        = Except.ok (Except.ok ⟨a - b⟩) := by
    intro a b hba
    apply parser_eval
    simp [evalR, BinaryOp.new, Number.new, hba]
  refine ⟨hmain, ?_⟩
  intro a b hba hne h
  rw [hmain a b hba] at h
  simp only [Except.ok.injEq, Number.mk.injEq] at h
  omega

theorem parser_sub_operand_order_witness :
    parser (BinaryOp.new (Number.new 14) (Number.new 2) OperatorKind.Sub)
      = Except.ok (Except.ok ⟨12⟩) :=
  parser_sub_operand_order.1 14 2 (by decide)

/-- C6 (amended): on well-formed trees none of the stack-discipline or
variant-match abort sites of `parser` is reachable — every outcome is a
value, the typed `DivByZero` error, or an arithmetic overflow/underflow
trap inside the `Number` operations; totality fails only at those
arithmetic traps. -/
theorem parser_wellformed_no_invariant_panic (e : Expr)
    (h1 : wellFormed e = true) (h2 : childOk e = true) :
    ∀ k : PanicKind, k ≠ PanicKind.overflow → parser e ≠ Except.error k := by
  intro k hk
  have hno := wf_noOp e h1 h2
  have hp1 := pass1_noOp e hno [] []
  simp at hp1
  rcases pass2_wfAux e h1 h2 [] [] with ⟨n, hn⟩ | hov | hdz
  · rw [List.append_nil] at hn
    rw [pass2_number_halt] at hn
    simp only [parser, hp1, hn]
    simp
  · rw [List.append_nil] at hov
    simp only [parser, hp1, hov]
    intro hco
    injection hco with hco2
    exact hk hco2.symm
  · rw [List.append_nil] at hdz
    simp only [parser, hp1, hdz]
    simp

theorem parser_wellformed_no_invariant_panic_witness :
    parser (Number.new 5) ≠ Except.error PanicKind.popEmpty1 :=
  parser_wellformed_no_invariant_panic (Number.new 5) (by decide) (by decide)
    PanicKind.popEmpty1 (by decide)

/-- C6 (counterexample to the claim as stated): the well-formed tree
`BinaryOp(Number(2), Number(14), Sub)` makes `parser` abort with the
subtraction underflow trap, so `parser` is not total on well-formed
inputs. -/
theorem parser_wellformed_underflow_trap :
    wellFormed (BinaryOp.new (Number.new 2) (Number.new 14) OperatorKind.Sub) = true
    ∧ childOk (BinaryOp.new (Number.new 2) (Number.new 14) OperatorKind.Sub) = true
    ∧ parser (BinaryOp.new (Number.new 2) (Number.new 14) OperatorKind.Sub)
        = Except.error PanicKind.overflow := by
  refine ⟨by decide, by decide, ?_⟩
  have hno : noOp (BinaryOp.new (Number.new 2) (Number.new 14) OperatorKind.Sub) = true := by
    decide
  have h1 := pass1_noOp _ hno [] []
  simp at h1
  have hflat : revFlat (BinaryOp.new (Number.new 2) (Number.new 14) OperatorKind.Sub)
      = [Expr.Number (some ⟨2⟩), Expr.Number (some ⟨14⟩), Expr.Operator OperatorKind.Sub] := rfl
  have h2 : pass2 [Expr.Number (some ⟨2⟩), Expr.Number (some ⟨14⟩),
      Expr.Operator OperatorKind.Sub] [] = Except.error PanicKind.overflow := by
    rw [pass2_number_cont _ _ _ (by simp), pass2_number_cont _ _ _ (by simp),
      pass2_sub_overflow _ _ _ _ (by decide)]
  rw [hflat] at h1
  simp only [parser, h1, h2]

/-- C7: the concrete nested evaluations — `((14-2)*2)` yields 24
(left-nested), `(2*(14-2))` yields 24 (right-nested), and adding a clone
of `((14-2)*2)` to the original yields 48. -/
theorem parser_nested_concrete_evals :
    parser (BinaryOp.new (BinaryOp.new (Number.new 14) (Number.new 2) OperatorKind.Sub)
        (Number.new 2) OperatorKind.Mul) = Except.ok (Except.ok ⟨24⟩)
    ∧ parser (BinaryOp.new (Number.new 2)
        (BinaryOp.new (Number.new 14) (Number.new 2) OperatorKind.Sub) OperatorKind.Mul)
        = Except.ok (Except.ok ⟨24⟩)
    ∧ parser (BinaryOp.new
        (Expr.cloneE (BinaryOp.new (BinaryOp.new (Number.new 14) (Number.new 2) OperatorKind.Sub)
          (Number.new 2) OperatorKind.Mul))
        (BinaryOp.new (BinaryOp.new (Number.new 14) (Number.new 2) OperatorKind.Sub)
          (Number.new 2) OperatorKind.Mul)
        OperatorKind.Add) = Except.ok (Except.ok ⟨48⟩) :=
  ⟨parser_eval _ 24 (by decide), parser_eval _ 24 (by decide), parser_eval _ 48 (by decide)⟩

/-- C8: evaluation is pure and deterministic — evaluating a clone of a
tree gives the same result as evaluating the tree, so two evaluations of
equal trees agree. -/
theorem parser_pure_on_clone (e : Expr) :
    parser (Expr.cloneE e) = parser e := by
  rw [cloneE_id]

/-- C9: `Number::from_expr` projects exactly the `Number` variant: it
round-trips `Number::new`, and returns `None` on every tree built by
`BinaryOp::new` and on every bare `Operator` expression. -/
theorem from_expr_number_projection :
    (∀ n : Nat, Number.from_expr (Number.new n) = some ⟨n⟩)
    ∧ (∀ (l r : Expr) (op : OperatorKind), Number.from_expr (BinaryOp.new l r op) = none)
    ∧ (∀ k : OperatorKind, Number.from_expr (Expr.Operator k) = none) :=
  ⟨fun _ => rfl, fun _ _ _ => rfl, fun _ => rfl⟩

/-- C10: for the malformed root `Expr::Number(None)` both passes accept
the node as a `Number` — neither variant-match abort fires — and `parser`
aborts only at the final result extraction, where the inner `Option` is
`None`, returning neither `Ok` nor a typed error. -/
theorem parser_number_none_aborts_at_extraction :
    pass1 [Expr.Number none] [] = Except.ok [Expr.Number none]
    ∧ pass2 [Expr.Number none] [] = Except.ok (Except.ok [none])
    ∧ parser (Expr.Number none) = Except.error PanicKind.finalNumNone := by
  have hp1 : pass1 [Expr.Number none] [] = Except.ok [Expr.Number none] := by
    rw [pass1]
    simp
  have hp2 := pass2_number_halt (none : Option Number)
  refine ⟨hp1, hp2, ?_⟩
  simp only [parser, hp1, hp2]
